import Mathlib

/-! Verification of the session-token authentication service implemented in
src/main.py (FastAPI + MongoDB).  The MongoDB users collection is modelled as
a list of documents: find_one is List.find? (first match), update_one rewrites
the first matching document, insert_one appends.  Timestamps are integers in
seconds, so timedelta(days = d) is d * 86400 seconds.  The random token from
uuid4().hex and the current time datetime.utcnow() are passed to the handlers
as explicit parameters.  Each HTTPException raised by a handler is modelled as
an explicit error value, and the handlers that write to the store return the
resulting store next to their outcome. -/

namespace Shield

/-- Error taxonomy: one constructor per HTTPException raised in main.py. -/
inductive Err where
  | DuplicateUsername
  | InvalidCredentials
  | UserDisabled
  | MissingAuthHeader
  | MalformedAuthHeader
  | InvalidSession
  | SessionInactive
deriving DecidableEq

/-- One document of the users collection (main.py, create_user_doc). -/
structure UserDoc where
  id : Nat
  username : String
  hashed_password : Option String
  full_name : Option String
  disabled : Bool
  logged_in : Bool
  session_token : Option String
  session_expires_at : Option Int
  created_at : Int
deriving DecidableEq

abbrev Store := List UserDoc

/-- Request body of POST /register (pydantic model RegisterIn). -/
structure RegisterIn where
  username : String
  password : String
  full_name : Option String
deriving DecidableEq

/-- Request body of POST /login (pydantic model LoginIn). -/
structure LoginIn where
  username : String
  password : String
deriving DecidableEq

/-- Response of POST /login (pydantic model TokenOut). -/
structure TokenOut where
  session_token : String
  expires_at : Option Int
deriving DecidableEq

/-- Public user view (pydantic model UserOut). -/
structure UserOut where
  id : Nat
  username : String
  full_name : Option String
  logged_in : Bool
deriving DecidableEq

/-- Configuration (main.py, class Settings). -/
structure Settings where
  MONGO_URI : String := "mongodb://localhost:27017"
  MONGO_DB : String := "fastapi_auth_db"
  SESSION_TOKEN_TTL_DAYS : Int := 30

/-- Modelled from the spec: hash_password (main.py) delegates to passlib's
CryptContext with the bcrypt_sha256 scheme; passlib itself is an external
library, not part of this repository's source.  Per spec section 4.1 the
hashed string records its scheme and verification is deterministic, so we
model the hash as the scheme tag followed by the plaintext (salt abstracted). -/
def hash_password (password : String) : String := "$bcrypt-sha256$" ++ password

/-- Modelled from the spec: a stored hash is recognisable (well formed) exactly
when it carries the scheme tag that hash_password produces. -/
def isWellFormedHash (h : String) : Bool := "$bcrypt-sha256$".data.isPrefixOf h.data

/-- Modelled from the spec: verify_password (main.py) is total: it identifies
the scheme of the stored hash and compares; on a malformed stored hash it
yields false rather than raising (spec section 4.1). -/
def verify_password (plain : String) (hashed : String) : Bool :=
  isWellFormedHash hashed && (hashed == hash_password plain)

/-- Predicate used by find_one for the username lookup. -/
def nameMatch (n : String) (u : UserDoc) : Bool := u.username == n

/-- Predicate used by find_one for the session-token lookup. -/
def tokMatch (t : String) (u : UserDoc) : Bool := u.session_token == some t

/-- Predicate used by update_one: matches the document carrying the given _id. -/
def idMatch (i : Nat) (u : UserDoc) : Bool := u.id == i

/-- get_user_doc_by_username (main.py): find_one on the username field. -/
def get_user_doc_by_username (store : Store) (username : String) : Option UserDoc :=
  store.find? (nameMatch username)

/-- get_user_doc_by_token (main.py): None for a falsy (empty) token, else
find_one on the session_token field. -/
def get_user_doc_by_token (store : Store) (token : String) : Option UserDoc :=
  if token = "" then none else store.find? (tokMatch token)

/-- update_one: Mongo updates (at most) the first matching document. -/
def updateFirst (p : UserDoc → Bool) (f : UserDoc → UserDoc) : Store → Store
  | [] => []
  | u :: rest => if p u then f u :: rest else u :: updateFirst p f rest

/-- The update applied by login (main.py): one update_one call setting
logged_in, session_token and session_expires_at together. -/
def setLoginState (token : String) (expiresAt : Int) (u : UserDoc) : UserDoc :=
  { u with logged_in := true, session_token := some token,
           session_expires_at := some expiresAt }

/-- The update applied by signout (main.py): one update_one call setting
logged_in := false and unsetting session_token and session_expires_at. -/
def clearLoginState (u : UserDoc) : UserDoc :=
  { u with logged_in := false, session_token := none, session_expires_at := none }

/-- timedelta(days = d), measured in seconds. -/
def timedeltaDays (d : Int) : Int := d * 86400

/-- create_user_doc (main.py): builds the fresh document and inserts it; the
store-assigned _id and the creation time are explicit inputs. -/
def create_user_doc (store : Store) (payload : RegisterIn) (now : Int) (freshId : Nat) :
    UserDoc × Store :=
  let doc : UserDoc :=
    { id := freshId
      username := payload.username
      hashed_password := some (hash_password payload.password)
      full_name := payload.full_name
      disabled := false
      logged_in := false
      session_token := none
      session_expires_at := none
      created_at := now }
  (doc, store ++ [doc])

/-- POST /register (main.py). -/
def register (store : Store) (user : RegisterIn) (now : Int) (freshId : Nat) :
    Except Err UserOut × Store :=
  match get_user_doc_by_username store user.username with
  | some _ => (.error .DuplicateUsername, store)
  | none =>
    let r := create_user_doc store user now freshId
    (.ok { id := r.1.id, username := r.1.username, full_name := r.1.full_name,
           logged_in := r.1.logged_in }, r.2)

/-- POST /login (main.py): verify credentials, then set the login state and
return the token and expiry.  The parameter token stands for
make_session_token() = uuid4().hex and now for datetime.utcnow(). -/
def login (st : Settings) (store : Store) (body : LoginIn) (token : String) (now : Int) :
    Except Err TokenOut × Store :=
  match get_user_doc_by_username store body.username with
  | none => (.error .InvalidCredentials, store)
  | some user_doc =>
    match user_doc.hashed_password with
    | none => (.error .InvalidCredentials, store)
    | some hashed =>
      if hashed = "" ∨ verify_password body.password hashed = false then
        (.error .InvalidCredentials, store)
      else if user_doc.disabled = true then
        (.error .UserDisabled, store)
      else
        (.ok { session_token := token,
               expires_at := some (now + timedeltaDays st.SESSION_TOKEN_TTL_DAYS) },
         updateFirst (idMatch user_doc.id)
           (setLoginState token (now + timedeltaDays st.SESSION_TOKEN_TTL_DAYS)) store)

/-- Python str.lower, character by character (ASCII case folding). -/
def strLower (s : String) : String := String.mk (s.data.map Char.toLower)

/-- Python str.partition at the first occurrence of sep: returns the parts
before and after it, with an empty part after when sep does not occur. -/
def partitionFirst (sep : Char) : List Char → List Char × List Char
  | [] => ([], [])
  | c :: rest =>
    if c = sep then ([], rest)
    else
      match partitionFirst sep rest with
      | (a, b) => (c :: a, b)

/-- authorization.partition(" ") as used by both handlers: the scheme is the
part before the first space, the token the whole remainder after it. -/
def partitionSpace (s : String) : String × String :=
  match partitionFirst ' ' s.data with
  | (a, b) => (String.mk a, String.mk b)

/-- The part of POST /signout after header validation (main.py). -/
def signout_token (store : Store) (token : String) : Except Err String × Store :=
  match get_user_doc_by_token store token with
  | none => (.error .InvalidSession, store)
  | some user_doc =>
    (.ok "Signed out", updateFirst (idMatch user_doc.id) clearLoginState store)

/-- POST /signout (main.py).  A missing header and an empty header string are
both falsy in Python and rejected alike. -/
def signout (store : Store) (authorization : Option String) : Except Err String × Store :=
  match authorization with
  | none => (.error .MissingAuthHeader, store)
  | some a =>
    if a = "" then (.error .MissingAuthHeader, store)
    else if strLower (partitionSpace a).1 ≠ "session" ∨ (partitionSpace a).2 = "" then
      (.error .MalformedAuthHeader, store)
    else signout_token store (partitionSpace a).2

/-- The part of require_session after header validation (main.py). -/
def authenticate_token (store : Store) (token : String) : Except Err UserOut :=
  match get_user_doc_by_token store token with
  | none => .error .InvalidSession
  | some user_doc =>
    if user_doc.logged_in = false then .error .SessionInactive
    else if user_doc.disabled = true then .error .UserDisabled
    else .ok { id := user_doc.id, username := user_doc.username,
               full_name := user_doc.full_name, logged_in := true }

/-- require_session (main.py), the guard of GET /protected. -/
def require_session (store : Store) (authorization : Option String) : Except Err UserOut :=
  match authorization with
  | none => .error .MissingAuthHeader
  | some a =>
    if a = "" then .error .MissingAuthHeader
    else if strLower (partitionSpace a).1 ≠ "session" ∨ (partitionSpace a).2 = "" then
      .error .MalformedAuthHeader
    else authenticate_token store (partitionSpace a).2

/-- A registered user who has not logged in yet (concrete test data). -/
def aliceBase : UserDoc :=
  { id := 1, username := "alice", hashed_password := some (hash_password "pw123"),
    full_name := some "Alice", disabled := false, logged_in := false,
    session_token := none, session_expires_at := none, created_at := 0 }

/-- The same user while logged in with token tok1 (concrete test data). -/
def aliceActive : UserDoc :=
  { aliceBase with logged_in := true, session_token := some "tok1",
                   session_expires_at := some 99 }

/-- A disabled user holding a stale but present session (concrete test data). -/
def carolDisabled : UserDoc :=
  { id := 2, username := "carol", hashed_password := some (hash_password "pw"),
    full_name := none, disabled := true, logged_in := true,
    session_token := some "tok2", session_expires_at := none, created_at := 0 }

/-- A user whose stored hash is corrupt (no scheme tag; concrete test data). -/
def daveCorrupt : UserDoc :=
  { id := 3, username := "dave", hashed_password := some "nothash",
    full_name := none, disabled := false, logged_in := false,
    session_token := none, session_expires_at := none, created_at := 0 }

/-- The fields of a user document that neither login nor signout touches. -/
def frameFields (u : UserDoc) : Nat × String × Option String × Option String × Bool × Int :=
  (u.id, u.username, u.hashed_password, u.full_name, u.disabled, u.created_at)

/-- Per-document invariant: a session token is present iff logged_in is true. -/
def tokenFlagInv (u : UserDoc) : Prop := u.session_token.isSome = u.logged_in

/-- Store-wide form of the token/flag invariant. -/
def storeInv (s : Store) : Prop := ∀ u ∈ s, tokenFlagInv u

/-! Helper lemmas about header parsing. -/

theorem sessionHeaderData (t : String) :
    ("Session " ++ t).data = 'S' :: 'e' :: 's' :: 's' :: 'i' :: 'o' :: 'n' :: ' ' :: t.data := by
  cases t with
  | mk l => rfl

theorem session_header_ne_empty (t : String) : ("Session " ++ t) ≠ "" := by
  intro h
  have h2 : ('S' :: 'e' :: 's' :: 's' :: 'i' :: 'o' :: 'n' :: ' ' :: t.data) = ([] : List Char) := by
    rw [← sessionHeaderData t, h]
  exact List.noConfusion h2

theorem partitionSpace_session (t : String) :
    partitionSpace ("Session " ++ t) = ("Session", t) := by
  cases t with
  | mk l => rfl

/-- Presenting the header (Session followed by a space and a non-empty token)
passes the header validation of require_session and hands the token on. -/
theorem require_session_session_header (store : Store) (t : String) (ht : t ≠ "") :
    require_session store (some ("Session " ++ t)) = authenticate_token store t := by
  show (if ("Session " ++ t) = "" then Except.error Err.MissingAuthHeader
    else if strLower (partitionSpace ("Session " ++ t)).1 ≠ "session" ∨
        (partitionSpace ("Session " ++ t)).2 = "" then Except.error Err.MalformedAuthHeader
    else authenticate_token store (partitionSpace ("Session " ++ t)).2) =
      authenticate_token store t
  rw [partitionSpace_session, if_neg (session_header_ne_empty t), if_neg]
  intro h
  rcases h with h | h
  · exact h rfl
  · exact ht h

/-- The same for signout. -/
theorem signout_session_header (store : Store) (t : String) (ht : t ≠ "") :
    signout store (some ("Session " ++ t)) = signout_token store t := by
  show (if ("Session " ++ t) = "" then (Except.error Err.MissingAuthHeader, store)
    else if strLower (partitionSpace ("Session " ++ t)).1 ≠ "session" ∨
        (partitionSpace ("Session " ++ t)).2 = "" then (Except.error Err.MalformedAuthHeader, store)
    else signout_token store (partitionSpace ("Session " ++ t)).2) =
      signout_token store t
  rw [partitionSpace_session, if_neg (session_header_ne_empty t), if_neg]
  intro h
  rcases h with h | h
  · exact h rfl
  · exact ht h

/-! Helper lemmas about find? and updateFirst over the store. -/

/-- If u is the unique element satisfying p, find? returns u. -/
theorem find?_eq_some_of_unique {l : List UserDoc} {u : UserDoc} {p : UserDoc → Bool}
    (hmem : u ∈ l) (hu : p u = true) (huniq : ∀ v ∈ l, p v = true → v = u) :
    l.find? p = some u := by
  induction l with
  | nil => cases hmem
  | cons v rest ih =>
    by_cases hv : p v = true
    · have hvu : v = u := huniq v (List.mem_cons_self v rest) hv
      subst hvu
      exact List.find?_cons_of_pos rest hv
    · have hmem2 : u ∈ rest := by
        rcases List.mem_cons.mp hmem with h | h
        · exact absurd (h ▸ hu) hv
        · exact h
      rw [List.find?_cons_of_neg rest (fun h => hv h)]
      exact ih hmem2 (fun w hw hpw => huniq w (List.mem_cons_of_mem v hw) hpw)

/-- updateFirst rewrites exactly the document that find? returns, when the
update keeps the document matching. -/
theorem find?_updateFirst_self {l : List UserDoc} {u : UserDoc} {p : UserDoc → Bool}
    {f : UserDoc → UserDoc} (hfind : l.find? p = some u) (hpf : p (f u) = true) :
    (updateFirst p f l).find? p = some (f u) := by
  induction l with
  | nil => exact absurd hfind (by simp)
  | cons v rest ih =>
    by_cases hv : p v = true
    · rw [List.find?_cons_of_pos rest hv] at hfind
      have hvu : v = u := by injection hfind
      subst hvu
      rw [updateFirst, if_pos hv]
      exact List.find?_cons_of_pos rest hpf
    · have hv' : ¬ p v := fun h => hv h
      rw [List.find?_cons_of_neg rest hv'] at hfind
      rw [updateFirst, if_neg hv']
      rw [List.find?_cons_of_neg _ hv']
      exact ih hfind

/-- With pairwise-distinct _ids, updating the document found by p through its
_id leaves it the document found by p, provided the update keeps p true. -/
theorem find?_updateFirst_pres {l : List UserDoc} {u : UserDoc} {p : UserDoc → Bool}
    {f : UserDoc → UserDoc}
    (hids : l.Pairwise (fun a b => a.id ≠ b.id))
    (hfind : l.find? p = some u) (hpf : p (f u) = true) :
    (updateFirst (idMatch u.id) f l).find? p = some (f u) := by
  induction l with
  | nil => exact absurd hfind (by simp)
  | cons v rest ih =>
    rcases List.pairwise_cons.mp hids with ⟨hhead, htail⟩
    by_cases hv : p v = true
    · rw [List.find?_cons_of_pos rest hv] at hfind
      have hvu : v = u := by injection hfind
      subst hvu
      rw [updateFirst, if_pos (by simp [idMatch])]
      exact List.find?_cons_of_pos rest hpf
    · have hv' : ¬ p v := fun h => hv h
      rw [List.find?_cons_of_neg rest hv'] at hfind
      have humem : u ∈ rest := List.mem_of_find?_eq_some hfind
      have hvid : v.id ≠ u.id := hhead u humem
      rw [updateFirst, if_neg (by simp [idMatch]; exact hvid)]
      rw [List.find?_cons_of_neg _ hv']
      exact ih htail hfind

/-- With pairwise-distinct _ids, after updating (through its _id) the unique
document that satisfies q, nothing satisfies q any more if the update removed
the match. -/
theorem find?_updateFirst_none {l : List UserDoc} {u : UserDoc} {q : UserDoc → Bool}
    {f : UserDoc → UserDoc}
    (hids : l.Pairwise (fun a b => a.id ≠ b.id))
    (hfind : l.find? q = some u)
    (huniq : ∀ v ∈ l, q v = true → v = u)
    (hq : q (f u) = false) :
    (updateFirst (idMatch u.id) f l).find? q = none := by
  induction l with
  | nil => exact absurd hfind (by simp)
  | cons v rest ih =>
    rcases List.pairwise_cons.mp hids with ⟨hhead, htail⟩
    by_cases hv : q v = true
    · rw [List.find?_cons_of_pos rest hv] at hfind
      have hvu : v = u := by injection hfind
      rw [updateFirst, if_pos (by rw [hvu]; simp [idMatch])]
      rw [List.find?_cons_of_neg _ (by rw [hvu]; simp [hq])]
      rw [List.find?_eq_none]
      intro w hw hqw
      have hwu : w = u := huniq w (List.mem_cons_of_mem v hw) hqw
      exact (hhead w hw) (by rw [hvu, hwu])
    · have hv' : ¬ q v := fun h => hv h
      rw [List.find?_cons_of_neg rest hv'] at hfind
      have humem : u ∈ rest := List.mem_of_find?_eq_some hfind
      have hvid : v.id ≠ u.id := hhead u humem
      rw [updateFirst, if_neg (by simp [idMatch]; exact hvid)]
      rw [List.find?_cons_of_neg _ hv']
      exact ih htail hfind (fun w hw hqw => huniq w (List.mem_cons_of_mem v hw) hqw)

/-- With pairwise-distinct _ids, looking a member up by its own _id finds it. -/
theorem find?_idMatch_of_mem {l : List UserDoc} {u : UserDoc}
    (hids : l.Pairwise (fun a b => a.id ≠ b.id)) (hmem : u ∈ l) :
    l.find? (idMatch u.id) = some u := by
  induction l with
  | nil => cases hmem
  | cons v rest ih =>
    rcases List.pairwise_cons.mp hids with ⟨hhead, htail⟩
    rcases List.mem_cons.mp hmem with h | h
    · subst h
      exact List.find?_cons_of_pos rest (by simp [idMatch])
    · have hvid : v.id ≠ u.id := hhead u h
      rw [List.find?_cons_of_neg rest (by simp [idMatch]; exact hvid)]
      exact ih htail h

/-- updateFirst leaves any per-document property intact when the update
establishes it for every document. -/
theorem updateFirst_forall {l : List UserDoc} {p : UserDoc → Bool}
    {f : UserDoc → UserDoc} {P : UserDoc → Prop}
    (hall : ∀ v ∈ l, P v) (hf : ∀ v, P (f v)) :
    ∀ v ∈ updateFirst p f l, P v := by
  induction l with
  | nil => intro v hv; cases hv
  | cons w rest ih =>
    intro v hv
    rw [updateFirst] at hv
    by_cases hw : p w = true
    · rw [if_pos hw] at hv
      rcases List.mem_cons.mp hv with h | h
      · exact h ▸ hf w
      · exact hall v (List.mem_cons_of_mem w h)
    · rw [if_neg hw] at hv
      rcases List.mem_cons.mp hv with h | h
      · exact h ▸ hall w (List.mem_cons_self w rest)
      · exact ih (fun x hx => hall x (List.mem_cons_of_mem w hx)) v h

/-- updateFirst preserves any projection that the update does not touch. -/
theorem map_updateFirst_frame {l : List UserDoc} {p : UserDoc → Bool}
    {f : UserDoc → UserDoc} {β : Type} {g : UserDoc → β}
    (hg : ∀ v, g (f v) = g v) :
    (updateFirst p f l).map g = l.map g := by
  induction l with
  | nil => rfl
  | cons v rest ih =>
    rw [updateFirst]
    by_cases hv : p v = true
    · rw [if_pos hv]
      simp [List.map_cons, hg v]
    · rw [if_neg hv]
      simp [List.map_cons, ih]

/-- Rewriting every document's session_expires_at commutes with the token
lookup: the predicate does not read that field. -/
theorem find?_expires_map (l : List UserDoc) (g : UserDoc → Option Int) (t : String) :
    (l.map fun v => { v with session_expires_at := g v }).find? (tokMatch t) =
      (l.find? (tokMatch t)).map fun v => { v with session_expires_at := g v } := by
  rw [List.find?_map]
  congr 1

/-! Claim theorems. -/

/-- C1 (counterexample): the claim as stated is false on the code.  On the
one-user store, signout with Session tok1 followed by protected access with
tok1 yields InvalidSession (which differs from the claimed SessionInactive)
and the record is NOT findable by tok1 any more, since signout unset
session_token. -/
theorem signout_then_access_cex :
    require_session (signout [aliceActive] (some ("Session " ++ "tok1"))).2
        (some ("Session " ++ "tok1")) = .error .InvalidSession ∧
    Err.InvalidSession ≠ Err.SessionInactive ∧
    get_user_doc_by_token (signout [aliceActive] (some ("Session " ++ "tok1"))).2 "tok1" =
      none :=
  ⟨rfl, by decide, rfl⟩

/-- C1 (amended): for every store with pairwise-distinct _ids in which token t
is held by exactly the record u, signout with credential Session t succeeds,
and protected access with the same token t then fails InvalidSession: the
record is no longer findable by token t (signout removed session_token), and
its logged_in flag is false. -/
theorem signout_then_access_spec (store : Store) (t : String) (u : UserDoc)
    (hids : store.Pairwise fun a b => a.id ≠ b.id)
    (hfind : get_user_doc_by_token store t = some u)
    (huniq : ∀ v ∈ store, tokMatch t v = true → v = u) :
    (signout store (some ("Session " ++ t))).1 = .ok "Signed out" ∧
    require_session (signout store (some ("Session " ++ t))).2
        (some ("Session " ++ t)) = .error .InvalidSession ∧
    get_user_doc_by_token (signout store (some ("Session " ++ t))).2 t = none ∧
    ∃ u2, ((signout store (some ("Session " ++ t))).2).find? (idMatch u.id) = some u2 ∧
      u2.logged_in = false ∧ u2.session_token = none := by
  have ht : t ≠ "" := by
    intro h
    rw [h] at hfind
    simp [get_user_doc_by_token] at hfind
  have hfind2 : store.find? (tokMatch t) = some u := by
    rw [get_user_doc_by_token, if_neg ht] at hfind
    exact hfind
  have hstep : signout_token store t =
      (.ok "Signed out", updateFirst (idMatch u.id) clearLoginState store) := by
    simp only [signout_token, hfind]
  have hnone : (updateFirst (idMatch u.id) clearLoginState store).find? (tokMatch t) = none :=
    find?_updateFirst_none hids hfind2 huniq rfl
  rw [signout_session_header store t ht, hstep]
  refine ⟨rfl, ?_, ?_, ?_⟩
  · rw [require_session_session_header _ t ht]
    simp [authenticate_token, get_user_doc_by_token, if_neg ht, hnone]
  · simp [get_user_doc_by_token, if_neg ht, hnone]
  · refine ⟨clearLoginState u, ?_, rfl, rfl⟩
    exact find?_updateFirst_self
      (find?_idMatch_of_mem hids (List.mem_of_find?_eq_some hfind2))
      (by simp [idMatch, clearLoginState])

/-- C1 (witness): the amended claim on the concrete one-user store. -/
theorem signout_then_access_witness :
    (signout [aliceActive] (some ("Session " ++ "tok1"))).1 = .ok "Signed out" ∧
    require_session (signout [aliceActive] (some ("Session " ++ "tok1"))).2
        (some ("Session " ++ "tok1")) = .error .InvalidSession :=
  ⟨(signout_then_access_spec [aliceActive] "tok1" aliceActive (by simp) rfl
      (by decide)).1,
   (signout_then_access_spec [aliceActive] "tok1" aliceActive (by simp) rfl
      (by decide)).2.1⟩

/-- C2: outcome analysis of protected access for a presented token t:
InvalidSession when no record matches, SessionInactive when the matched
record is not logged in, UserDisabled when it is logged in but disabled (and
a disabled record never yields success), success returning the public view
with logged_in = true otherwise; and the stored session_expires_at value is
never consulted: rewriting it in every record leaves the outcome unchanged. -/
theorem require_session_spec (store : Store) (t : String) (ht : t ≠ "") :
    (get_user_doc_by_token store t = none →
        require_session store (some ("Session " ++ t)) = .error .InvalidSession) ∧
    (∀ u, get_user_doc_by_token store t = some u → u.logged_in = false →
        require_session store (some ("Session " ++ t)) = .error .SessionInactive) ∧
    (∀ u, get_user_doc_by_token store t = some u → u.logged_in = true →
        u.disabled = true →
        require_session store (some ("Session " ++ t)) = .error .UserDisabled) ∧
    (∀ u, get_user_doc_by_token store t = some u → u.disabled = true →
        ∀ out, require_session store (some ("Session " ++ t)) ≠ .ok out) ∧
    (∀ u, get_user_doc_by_token store t = some u → u.logged_in = true →
        u.disabled = false →
        require_session store (some ("Session " ++ t)) =
          .ok { id := u.id, username := u.username, full_name := u.full_name,
                logged_in := true }) ∧
    (∀ g : UserDoc → Option Int,
        require_session (store.map fun v => { v with session_expires_at := g v })
            (some ("Session " ++ t)) =
          require_session store (some ("Session " ++ t))) := by
  rw [require_session_session_header store t ht]
  refine ⟨?_, ?_, ?_, ?_, ?_, ?_⟩
  · intro h
    simp [authenticate_token, h]
  · intro u h hl
    simp [authenticate_token, h, hl]
  · intro u h hl hd
    simp [authenticate_token, h, hl, hd]
  · intro u h hd out
    cases hl : u.logged_in with
    | false => simp [authenticate_token, h, hl]
    | true => simp [authenticate_token, h, hl, hd]
  · intro u h hl hd
    simp [authenticate_token, h, hl, hd]
  · intro g
    rw [require_session_session_header _ t ht]
    cases hfind : store.find? (tokMatch t) with
    | none =>
      have h1 : get_user_doc_by_token store t = none := by
        rw [get_user_doc_by_token, if_neg ht, hfind]
      have h2 : get_user_doc_by_token
          (store.map fun v => { v with session_expires_at := g v }) t = none := by
        rw [get_user_doc_by_token, if_neg ht, find?_expires_map, hfind]
        rfl
      simp [authenticate_token, h1, h2]
    | some u =>
      have h1 : get_user_doc_by_token store t = some u := by
        rw [get_user_doc_by_token, if_neg ht, hfind]
      have h2 : get_user_doc_by_token
          (store.map fun v => { v with session_expires_at := g v }) t =
          some { u with session_expires_at := g u } := by
        rw [get_user_doc_by_token, if_neg ht, find?_expires_map, hfind]
        rfl
      simp only [authenticate_token, h1, h2]

/-- C2 (witness): protected access with the live token of the concrete
logged-in user succeeds with the public view. -/
theorem require_session_witness :
    require_session [aliceActive] (some ("Session " ++ "tok1")) =
      .ok { id := 1, username := "alice", full_name := some "Alice", logged_in := true } :=
  (require_session_spec [aliceActive] "tok1" (by decide)).2.2.2.2.1 aliceActive rfl rfl rfl

/-- C8: whenever the signout token matches a record, the clear-login-state
update is applied unconditionally: with no hypothesis on disabled or on the
current logged_in value, the call succeeds, every document keeps its
username, hashed_password, full_name, disabled and created_at fields, and
the updated document has logged_in false, no session_token and no
session_expires_at. -/
theorem signout_frame_spec (store : Store) (t : String) (u : UserDoc)
    (hfind : get_user_doc_by_token store t = some u) :
    (signout store (some ("Session " ++ t))).1 = .ok "Signed out" ∧
    ((signout store (some ("Session " ++ t))).2).map frameFields = store.map frameFields ∧
    ∃ u2, ((signout store (some ("Session " ++ t))).2).find? (idMatch u.id) = some u2 ∧
      u2.logged_in = false ∧ u2.session_token = none ∧ u2.session_expires_at = none := by
  have ht : t ≠ "" := by
    intro h
    rw [h] at hfind
    simp [get_user_doc_by_token] at hfind
  have hfind2 : store.find? (tokMatch t) = some u := by
    rw [get_user_doc_by_token, if_neg ht] at hfind
    exact hfind
  have hstep : signout_token store t =
      (.ok "Signed out", updateFirst (idMatch u.id) clearLoginState store) := by
    simp only [signout_token, hfind]
  rw [signout_session_header store t ht, hstep]
  refine ⟨rfl, map_updateFirst_frame (fun v => rfl), ?_⟩
  have humem : u ∈ store := List.mem_of_find?_eq_some hfind2
  have hex : (store.find? (idMatch u.id)).isSome :=
    List.find?_isSome.mpr ⟨u, humem, by simp [idMatch]⟩
  rcases Option.isSome_iff_exists.mp hex with ⟨v, hv⟩
  refine ⟨clearLoginState v, ?_, rfl, rfl, rfl⟩
  have hvm : idMatch u.id v = true := List.find?_some hv
  exact find?_updateFirst_self hv (by simpa [idMatch, clearLoginState] using hvm)

/-- C8 (witness): signing out a disabled user's session still succeeds and
keeps the frame fields, showing the update is unconditional. -/
theorem signout_frame_witness :
    (signout [carolDisabled] (some ("Session " ++ "tok2"))).1 = .ok "Signed out" ∧
    ((signout [carolDisabled] (some ("Session " ++ "tok2"))).2).map frameFields =
      [carolDisabled].map frameFields :=
  ⟨(signout_frame_spec [carolDisabled] "tok2" carolDisabled rfl).1,
   (signout_frame_spec [carolDisabled] "tok2" carolDisabled rfl).2.1⟩

/-- C3: login outcome analysis: InvalidCredentials (one single error value,
identical in all three cases) when the username is unknown, when the stored
hash is missing, or when verification fails; UserDisabled when the password
verifies but the user is disabled; and success exactly when the user exists,
the stored hash is present and verifies, and the user is not disabled. -/
theorem login_cases_spec (st : Settings) (store : Store) (body : LoginIn)
    (token : String) (now : Int) :
    (get_user_doc_by_username store body.username = none →
        login st store body token now = (.error .InvalidCredentials, store)) ∧
    (∀ u, get_user_doc_by_username store body.username = some u →
        u.hashed_password = none →
        login st store body token now = (.error .InvalidCredentials, store)) ∧
    (∀ u hs, get_user_doc_by_username store body.username = some u →
        u.hashed_password = some hs →
        (hs = "" ∨ verify_password body.password hs = false) →
        login st store body token now = (.error .InvalidCredentials, store)) ∧
    (∀ u hs, get_user_doc_by_username store body.username = some u →
        u.hashed_password = some hs → hs ≠ "" →
        verify_password body.password hs = true → u.disabled = true →
        login st store body token now = (.error .UserDisabled, store)) ∧
    ((∃ out store2, login st store body token now = (.ok out, store2)) ↔
      ∃ u hs, get_user_doc_by_username store body.username = some u ∧
        u.hashed_password = some hs ∧ hs ≠ "" ∧
        verify_password body.password hs = true ∧ u.disabled = false) := by
  refine ⟨?_, ?_, ?_, ?_, ?_⟩
  · intro h
    simp [login, h]
  · intro u h hp
    simp [login, h, hp]
  · intro u hs h hp hor
    simp only [login, h, hp]
    rw [if_pos hor]
  · intro u hs h hp hne hv hd
    simp only [login, h, hp]
    rw [if_neg (by rintro (hc | hc); exacts [hne hc, by rw [hv] at hc; cases hc]),
      if_pos hd]
  · constructor
    · rintro ⟨out, store2, hlogin⟩
      cases hfu : get_user_doc_by_username store body.username with
      | none => simp [login, hfu] at hlogin
      | some u =>
        cases hhp : u.hashed_password with
        | none => simp [login, hfu, hhp] at hlogin
        | some hs =>
          simp only [login, hfu, hhp] at hlogin
          by_cases hc : hs = "" ∨ verify_password body.password hs = false
          · rw [if_pos hc] at hlogin
            simp at hlogin
          · rw [if_neg hc] at hlogin
            by_cases hd : u.disabled = true
            · rw [if_pos hd] at hlogin
              simp at hlogin
            · refine ⟨u, hs, rfl, hhp, fun h => hc (Or.inl h), ?_, ?_⟩
              · cases hv : verify_password body.password hs
                · exact absurd (Or.inr hv) hc
                · rfl
              · cases hdd : u.disabled
                · rfl
                · exact absurd hdd hd
    · rintro ⟨u, hs, hfu, hhp, hne, hv, hd⟩
      refine ⟨{ session_token := token,
                expires_at := some (now + timedeltaDays st.SESSION_TOKEN_TTL_DAYS) },
        updateFirst (idMatch u.id)
          (setLoginState token (now + timedeltaDays st.SESSION_TOKEN_TTL_DAYS)) store, ?_⟩
      simp only [login, hfu, hhp]
      rw [if_neg (by rintro (hc | hc); exacts [hne hc, by rw [hv] at hc; cases hc]),
        if_neg (by rw [hd]; exact Bool.false_ne_true)]

/-- C3 (witness): correct credentials for an existing enabled user succeed;
an unknown username fails InvalidCredentials. -/
theorem login_cases_witness :
    (∃ out store2,
        login {} [aliceBase] { username := "alice", password := "pw123" } "tok9" 5 =
          (.ok out, store2)) ∧
    login {} [] { username := "bob", password := "x" } "tok9" 5 =
      (.error .InvalidCredentials, []) :=
  ⟨(login_cases_spec {} [aliceBase] { username := "alice", password := "pw123" }
        "tok9" 5).2.2.2.2.mpr
      ⟨aliceBase, hash_password "pw123", rfl, rfl, by decide, by decide, rfl⟩,
   (login_cases_spec {} [] { username := "bob", password := "x" } "tok9" 5).1 rfl⟩

/-- C6: a register call for a username already present in the store fails
DuplicateUsername and returns the store unchanged; in particular after a
successful registration any second registration of the same username fails
and leaves the store exactly as the first call left it. -/
theorem register_duplicate_spec (store : Store) :
    (∀ p now i, get_user_doc_by_username store p.username ≠ none →
        register store p now i = (.error .DuplicateUsername, store)) ∧
    (∀ p now i out store2, register store p now i = (.ok out, store2) →
        ∀ p2 now2 i2, p2.username = p.username →
          register store2 p2 now2 i2 = (.error .DuplicateUsername, store2)) := by
  constructor
  · intro p now i hne
    cases hfu : get_user_doc_by_username store p.username with
    | none => exact absurd hfu hne
    | some u => simp [register, hfu]
  · intro p now i out store2 hreg p2 now2 i2 hname
    cases hfu : get_user_doc_by_username store p.username with
    | some u => simp [register, hfu] at hreg
    | none =>
      simp only [register, hfu] at hreg
      have hst : store2 = store ++ [(create_user_doc store p now i).1] :=
        (congrArg Prod.snd hreg).symm
      have hfound : get_user_doc_by_username store2 p2.username =
          some (create_user_doc store p now i).1 := by
        rw [hst, get_user_doc_by_username, hname, List.find?_append]
        rw [get_user_doc_by_username] at hfu
        rw [hfu]
        simp [nameMatch, create_user_doc]
      simp [register, hfound]

/-- C6 (witness): registering alice a second time on the store produced by
the first registration fails DuplicateUsername and leaves it untouched. -/
theorem register_duplicate_witness :
    register [aliceBase] { username := "alice", password := "other", full_name := none }
        7 2 = (.error .DuplicateUsername, [aliceBase]) :=
  (register_duplicate_spec []).2
    { username := "alice", password := "pw123", full_name := some "Alice" } 0 1
    { id := 1, username := "alice", full_name := some "Alice", logged_in := false }
    [aliceBase] rfl
    { username := "alice", password := "other", full_name := none } 7 2 rfl

/-- C9: verification against a malformed stored hash yields false (the
verifier is a total boolean function, so no error is raised), and in login a
record carrying such a corrupt hash fails with InvalidCredentials. -/
theorem verify_malformed_spec (plain hashed : String)
    (hmal : isWellFormedHash hashed = false) :
    verify_password plain hashed = false ∧
    (∀ st store body u token now,
        get_user_doc_by_username store body.username = some u →
        u.hashed_password = some hashed →
        login st store body token now = (.error .InvalidCredentials, store)) := by
  have hvf : ∀ q : String, verify_password q hashed = false := by
    intro q
    rw [verify_password, hmal, Bool.false_and]
  refine ⟨hvf plain, ?_⟩
  intro st store body u token now hfu hhp
  simp only [login, hfu, hhp]
  rw [if_pos (Or.inr (hvf body.password))]

/-- C9 (witness): the corrupt stored hash of the concrete user dave makes
verification return false and login fail InvalidCredentials. -/
theorem verify_malformed_witness :
    verify_password "pw123" "nothash" = false ∧
    login {} [daveCorrupt] { username := "dave", password := "pw123" } "tok" 0 =
      (.error .InvalidCredentials, [daveCorrupt]) :=
  ⟨(verify_malformed_spec "pw123" "nothash" (by decide)).1,
   (verify_malformed_spec "pw123" "nothash" (by decide)).2 {} [daveCorrupt]
      { username := "dave", password := "pw123" } daveCorrupt "tok" 0 rfl rfl⟩

/-- C4: a second successful login overwrites the stored token: if the record u
for the login username holds token t1 (uniquely, in a store with
pairwise-distinct _ids) and a login for that username succeeds issuing a
fresh token t2 ≠ t1, then the response carries t2, token t1 matches no record
any more, and protected access with t1 fails InvalidSession. -/
theorem second_login_overwrites_spec (st : Settings) (store : Store) (body : LoginIn)
    (t1 t2 : String) (now : Int) (out : TokenOut) (store2 : Store) (u : UserDoc)
    (hids : store.Pairwise fun a b => a.id ≠ b.id)
    (hfu : get_user_doc_by_username store body.username = some u)
    (ht1 : u.session_token = some t1)
    (huniq : ∀ v ∈ store, tokMatch t1 v = true → v = u)
    (hne12 : t2 ≠ t1) (ht1ne : t1 ≠ "")
    (hlogin : login st store body t2 now = (.ok out, store2)) :
    out.session_token = t2 ∧
    get_user_doc_by_token store2 t1 = none ∧
    require_session store2 (some ("Session " ++ t1)) = .error .InvalidSession := by
  have hfu2 : store.find? (nameMatch body.username) = some u := hfu
  have humem : u ∈ store := List.mem_of_find?_eq_some hfu2
  have hfind2 : store.find? (tokMatch t1) = some u :=
    find?_eq_some_of_unique humem (by simp [tokMatch, ht1]) huniq
  cases hhp : u.hashed_password with
  | none => simp [login, hfu, hhp] at hlogin
  | some hs =>
    simp only [login, hfu, hhp] at hlogin
    by_cases hc : hs = "" ∨ verify_password body.password hs = false
    · rw [if_pos hc] at hlogin
      simp at hlogin
    · rw [if_neg hc] at hlogin
      by_cases hd : u.disabled = true
      · rw [if_pos hd] at hlogin
        simp at hlogin
      · rw [if_neg hd] at hlogin
        have hfst := congrArg Prod.fst hlogin
        have hsnd : updateFirst (idMatch u.id)
            (setLoginState t2 (now + timedeltaDays st.SESSION_TOKEN_TTL_DAYS)) store =
            store2 := congrArg Prod.snd hlogin
        injection hfst with hout
        subst hout
        subst hsnd
        have hnone : (updateFirst (idMatch u.id)
            (setLoginState t2 (now + timedeltaDays st.SESSION_TOKEN_TTL_DAYS))
            store).find? (tokMatch t1) = none :=
          find?_updateFirst_none hids hfind2 huniq
            (by simp [tokMatch, setLoginState, hne12])
        refine ⟨rfl, ?_, ?_⟩
        · rw [get_user_doc_by_token, if_neg ht1ne, hnone]
        · rw [require_session_session_header _ t1 ht1ne]
          simp [authenticate_token, get_user_doc_by_token, if_neg ht1ne, hnone]

/-- C4 (witness): after alice logs in again with fresh token tok2x, her old
token tok1 is no longer findable. -/
theorem second_login_overwrites_witness :
    get_user_doc_by_token
      (login {} [aliceActive] { username := "alice", password := "pw123" } "tok2x" 50).2
      "tok1" = none :=
  (second_login_overwrites_spec {} [aliceActive]
      { username := "alice", password := "pw123" } "tok1" "tok2x" 50
      { session_token := "tok2x", expires_at := some (50 + timedeltaDays 30) }
      (login {} [aliceActive] { username := "alice", password := "pw123" } "tok2x" 50).2
      aliceActive (by simp) rfl rfl (by decide) (by decide) (by decide) rfl).2.1

/-- C5: the token/flag invariant (session_token present iff logged_in true)
is preserved by register, login and signout on every store that satisfies
it; moreover registration creates the document with logged_in false and no
token, the login update sets token and flag together, and the signout update
clears both together. -/
theorem state_invariant_spec (store : Store) (hinv : storeInv store) :
    (∀ p now i, storeInv (register store p now i).2) ∧
    (∀ st body token now, storeInv (login st store body token now).2) ∧
    (∀ auth, storeInv (signout store auth).2) ∧
    (∀ p now i, (create_user_doc store p now i).1.logged_in = false ∧
        (create_user_doc store p now i).1.session_token = none) ∧
    (∀ token e u, (setLoginState token e u).logged_in = true ∧
        (setLoginState token e u).session_token = some token) ∧
    (∀ u, (clearLoginState u).logged_in = false ∧
        (clearLoginState u).session_token = none) := by
  refine ⟨?_, ?_, ?_, fun p now i => ⟨rfl, rfl⟩, fun token e u => ⟨rfl, rfl⟩,
    fun u => ⟨rfl, rfl⟩⟩
  · intro p now i
    cases hfu : get_user_doc_by_username store p.username with
    | some u =>
      simp only [register, hfu]
      exact hinv
    | none =>
      simp only [register, hfu]
      intro u hu
      rcases List.mem_append.mp hu with h | h
      · exact hinv u h
      · rw [List.mem_singleton.mp h]
        rfl
  · intro st body token now
    cases hfu : get_user_doc_by_username store body.username with
    | none =>
      simp only [login, hfu]
      exact hinv
    | some u =>
      cases hhp : u.hashed_password with
      | none =>
        simp only [login, hfu, hhp]
        exact hinv
      | some hs =>
        simp only [login, hfu, hhp]
        by_cases hc : hs = "" ∨ verify_password body.password hs = false
        · rw [if_pos hc]
          exact hinv
        · rw [if_neg hc]
          by_cases hd : u.disabled = true
          · rw [if_pos hd]
            exact hinv
          · rw [if_neg hd]
            exact updateFirst_forall hinv (fun w => rfl)
  · intro auth
    cases auth with
    | none => exact hinv
    | some a =>
      simp only [signout]
      split
      · exact hinv
      · split
        · exact hinv
        · cases hft : get_user_doc_by_token store (partitionSpace a).2 with
          | none =>
            simp only [signout_token, hft]
            exact hinv
          | some v =>
            simp only [signout_token, hft]
            exact updateFirst_forall hinv (fun w => rfl)

/-- C5 (witness): the invariant holds after a concrete registration and after
a concrete signout. -/
theorem state_invariant_witness :
    storeInv (register []
        { username := "alice", password := "pw123", full_name := some "Alice" } 0 1).2 ∧
    storeInv (signout [aliceActive] (some ("Session " ++ "tok1"))).2 :=
  ⟨(state_invariant_spec [] (by intro u hu; cases hu)).1
      { username := "alice", password := "pw123", full_name := some "Alice" } 0 1,
   (state_invariant_spec [aliceActive]
      (by intro u hu; rw [List.mem_singleton.mp hu]; rfl)).2.2.1
      (some ("Session " ++ "tok1"))⟩

/-- C7: a successful login at time now with configuration st issues expiry
now + TTL days (TTL = st.SESSION_TOKEN_TTL_DAYS; the default configuration
has TTL = 30), persists the generated token and exactly that expiry together
with logged_in = true on the user's record in one update, and the response
returns exactly the stored values. -/
theorem login_persist_spec (st : Settings) (store : Store) (body : LoginIn)
    (token : String) (now : Int) (out : TokenOut) (store2 : Store)
    (hids : store.Pairwise fun a b => a.id ≠ b.id)
    (hlogin : login st store body token now = (.ok out, store2)) :
    out.session_token = token ∧
    out.expires_at = some (now + timedeltaDays st.SESSION_TOKEN_TTL_DAYS) ∧
    ({} : Settings).SESSION_TOKEN_TTL_DAYS = 30 ∧
    ∃ u2, get_user_doc_by_username store2 body.username = some u2 ∧
      u2.logged_in = true ∧ u2.session_token = some out.session_token ∧
      u2.session_expires_at = out.expires_at := by
  cases hfu : get_user_doc_by_username store body.username with
  | none => simp [login, hfu] at hlogin
  | some u =>
    cases hhp : u.hashed_password with
    | none => simp [login, hfu, hhp] at hlogin
    | some hs =>
      simp only [login, hfu, hhp] at hlogin
      by_cases hc : hs = "" ∨ verify_password body.password hs = false
      · rw [if_pos hc] at hlogin
        simp at hlogin
      · rw [if_neg hc] at hlogin
        by_cases hd : u.disabled = true
        · rw [if_pos hd] at hlogin
          simp at hlogin
        · rw [if_neg hd] at hlogin
          have hfst := congrArg Prod.fst hlogin
          have hsnd : updateFirst (idMatch u.id)
              (setLoginState token (now + timedeltaDays st.SESSION_TOKEN_TTL_DAYS))
              store = store2 := congrArg Prod.snd hlogin
          injection hfst with hout
          subst hout
          subst hsnd
          have hfu2 : store.find? (nameMatch body.username) = some u := hfu
          have hpu : nameMatch body.username u = true := List.find?_some hfu2
          refine ⟨rfl, rfl, rfl,
            setLoginState token (now + timedeltaDays st.SESSION_TOKEN_TTL_DAYS) u,
            ?_, rfl, rfl, rfl⟩
          exact find?_updateFirst_pres hids hfu2
            (by simpa [nameMatch, setLoginState] using hpu)

/-- C7 (witness): concrete successful login stores and returns token tokZ and
expiry 100 + 30 days. -/
theorem login_persist_witness :
    ∃ u2, get_user_doc_by_username
        (login {} [aliceBase] { username := "alice", password := "pw123" } "tokZ" 100).2
        "alice" = some u2 ∧
      u2.logged_in = true ∧ u2.session_token = some "tokZ" ∧
      u2.session_expires_at = some (100 + timedeltaDays 30) :=
  (login_persist_spec {} [aliceBase] { username := "alice", password := "pw123" }
      "tokZ" 100 { session_token := "tokZ", expires_at := some (100 + timedeltaDays 30) }
      (login {} [aliceBase] { username := "alice", password := "pw123" } "tokZ" 100).2
      (by simp) rfl).2.2.2

/-- C10: header validation in signout and require_session: splitting the
header at its first space, the request is accepted exactly when the part
before the space lower-cases to "session" and the remainder is non-empty;
the token handed to the lookup is the entire remainder after the first space
(it may itself contain spaces), and any capitalisation of the scheme, such
as SESSION or session, is accepted. -/
theorem header_parse_spec (store : Store) (a : String) (ha : a ≠ "") :
    (strLower (partitionSpace a).1 = "session" → (partitionSpace a).2 ≠ "" →
        require_session store (some a) = authenticate_token store (partitionSpace a).2 ∧
        signout store (some a) = signout_token store (partitionSpace a).2) ∧
    (¬ (strLower (partitionSpace a).1 = "session" ∧ (partitionSpace a).2 ≠ "") →
        require_session store (some a) = .error .MalformedAuthHeader ∧
        signout store (some a) = (.error .MalformedAuthHeader, store)) ∧
    (∀ tk : String, partitionSpace ("SESSION " ++ tk) = ("SESSION", tk) ∧
        partitionSpace ("session " ++ tk) = ("session", tk) ∧
        partitionSpace ("Session " ++ tk) = ("Session", tk)) := by
  refine ⟨?_, ?_, ?_⟩
  · intro hs hk
    constructor
    · show (if a = "" then Except.error Err.MissingAuthHeader
        else if strLower (partitionSpace a).1 ≠ "session" ∨ (partitionSpace a).2 = "" then
          Except.error Err.MalformedAuthHeader
        else authenticate_token store (partitionSpace a).2) = _
      rw [if_neg ha, if_neg (by rintro (hc | hc); exacts [hc hs, hk hc])]
    · show (if a = "" then (Except.error Err.MissingAuthHeader, store)
        else if strLower (partitionSpace a).1 ≠ "session" ∨ (partitionSpace a).2 = "" then
          (Except.error Err.MalformedAuthHeader, store)
        else signout_token store (partitionSpace a).2) = _
      rw [if_neg ha, if_neg (by rintro (hc | hc); exacts [hc hs, hk hc])]
  · intro hnot
    have hcond : strLower (partitionSpace a).1 ≠ "session" ∨ (partitionSpace a).2 = "" := by
      by_cases h1 : strLower (partitionSpace a).1 = "session"
      · right
        by_contra h2
        exact hnot ⟨h1, h2⟩
      · exact Or.inl h1
    constructor
    · show (if a = "" then Except.error Err.MissingAuthHeader
        else if strLower (partitionSpace a).1 ≠ "session" ∨ (partitionSpace a).2 = "" then
          Except.error Err.MalformedAuthHeader
        else authenticate_token store (partitionSpace a).2) = _
      rw [if_neg ha, if_pos hcond]
    · show (if a = "" then (Except.error Err.MissingAuthHeader, store)
        else if strLower (partitionSpace a).1 ≠ "session" ∨ (partitionSpace a).2 = "" then
          (Except.error Err.MalformedAuthHeader, store)
        else signout_token store (partitionSpace a).2) = _
      rw [if_neg ha, if_pos hcond]
  · intro tk
    refine ⟨?_, ?_, ?_⟩ <;> cases tk with | mk l => rfl

/-- C10 (witness): an upper-case scheme is accepted with a token containing a
space; a lower-case scheme is accepted by signout; a space-free header is
rejected as malformed. -/
theorem header_parse_witness :
    require_session [] (some ("SESSION " ++ "a b")) = authenticate_token [] "a b" ∧
    signout [] (some ("session " ++ "x y")) = signout_token [] "x y" ∧
    require_session [] (some "nonsense") = .error .MalformedAuthHeader :=
  ⟨((header_parse_spec [] ("SESSION " ++ "a b") (by decide)).1 (by decide) (by decide)).1,
   ((header_parse_spec [] ("session " ++ "x y") (by decide)).1 (by decide) (by decide)).2,
   ((header_parse_spec [] "nonsense" (by decide)).2.1 (by decide)).1⟩

end Shield
